import Mathlib

/-!
Verification of the route-planning engine of the logistics-rush repository.

The Python sources embedded here are src/routing.py, src/routing_optimization.py,
src/feature_road_closures.py and src/config.py. The embedding is shallow:

* Python float distances become WithTop Rat; the value float("inf") becomes the top
  element, which absorbs addition and is not less than itself, exactly like the float
  infinity arithmetic used by the source.
* The mutable session state (closed_roads, packages, constraints) becomes explicit
  fields of a context structure Ctx passed to every function.
* The function check_constraints is imported by the source from config but is defined
  nowhere in the repository; it is modelled from the specification (section 4.2).
* Behavior of third-party library calls (networkx) and of Python set iteration order is
  not reproduced instruction by instruction; where a source function consumes such a
  value, the embedded function takes it as an explicit argument, and the theorems either
  quantify over it or instantiate it with the value the library produces.

Rat arithmetic operations are irreducible by default, which blocks kernel evaluation of
concrete routes; the attribute line below restores reducibility for them inside this
file only.
-/

attribute [local semireducible] Rat.add Rat.mul Rat.sub Rat.inv Rat.ofScientific

namespace LogisticsRush

/-- Locations are the string names used throughout the source. -/
abbrev Loc := String

/-- Distances with the float infinity of the source modelled as the top element. -/
abbrev RDist := WithTop ℚ

/-- Package of the session state: create_action_route and the fallback branches of
solve_tsp read only the id, pickup and delivery fields. -/
structure Package where
  id : ℕ
  pickup : Loc
  delivery : Loc
deriving DecidableEq

/-- Session and configuration data consumed by the routing functions: the keys of the
LOCATIONS dict of config.py, the DISTANCES table of config.py, the closed_roads list of
the session state, the session ordering constraints (see check_constraints), and the
packages list of the session state. -/
structure Ctx where
  locations : List Loc
  distances : List ((Loc × Loc) × ℚ)
  closed_roads : List (Loc × Loc)
  constraints : List (Loc × Loc)
  packages : List Package

/-- Lookup of an ordered pair in the DISTANCES table: the Python expressions
(a, b) in DISTANCES and DISTANCES[(a, b)] combined. -/
def lookupDist (ctx : Ctx) (p : Loc × Loc) : Option ℚ :=
  (ctx.distances.find? (fun e => e.1 == p)).map (fun e => e.2)

/-- Embeds is_road_closed of feature_road_closures.py: a road is closed when the pair
in either orientation is in the closed_roads list. -/
def is_road_closed (ctx : Ctx) (loc1 loc2 : Loc) : Bool :=
  ctx.closed_roads.contains (loc1, loc2) || ctx.closed_roads.contains (loc2, loc1)

/-- Embeds get_distance of routing.py: infinity when the road is closed, then the table
entry in either orientation, and infinity when the pair is absent. -/
def get_distance (ctx : Ctx) (loc1 loc2 : Loc) : RDist :=
  if is_road_closed ctx loc1 loc2 then ⊤
  else
    match lookupDist ctx (loc1, loc2) with
    | some d => (d : RDist)
    | none =>
      match lookupDist ctx (loc2, loc1) with
      | some d => (d : RDist)
      | none => ⊤

/-- Condition under which the loop body of find_detour returns through a given
intermediate location: distinct from the endpoints, both legs open, finite sum. -/
def fdPred (ctx : Ctx) (a b via : Loc) : Bool :=
  via != a && via != b && !is_road_closed ctx a via && !is_road_closed ctx via b &&
    decide (get_distance ctx a via + get_distance ctx via b ≠ ⊤)

/-- Loop of find_detour of routing.py over the candidate intermediate locations, in the
iteration order of the LOCATIONS dict. -/
def find_detour_aux (ctx : Ctx) (a b : Loc) : List Loc → Option (List Loc) × RDist
  | [] => (none, ⊤)
  | via :: rest =>
    if fdPred ctx a b via then
      (some [a, via, b], get_distance ctx a via + get_distance ctx via b)
    else
      find_detour_aux ctx a b rest

/-- Embeds find_detour of routing.py: the direct pair when the road is open, otherwise
the first usable single intermediate hop, otherwise no route. -/
def find_detour (ctx : Ctx) (from_loc to_loc : Loc) : Option (List Loc) × RDist :=
  if is_road_closed ctx from_loc to_loc = false then
    (some [from_loc, to_loc], get_distance ctx from_loc to_loc)
  else
    find_detour_aux ctx from_loc to_loc ctx.locations

/-- Embeds calculate_segment_path of routing.py: the direct pair when its distance is
finite, otherwise whatever find_detour produces, with the no-detour case normalized to
the pair (none, infinity). -/
def calculate_segment_path (ctx : Ctx) (from_loc to_loc : Loc) :
    Option (List Loc) × RDist :=
  let direct := get_distance ctx from_loc to_loc
  if direct ≠ ⊤ then ([from_loc, to_loc], direct)
  else
    match find_detour ctx from_loc to_loc with
    | (some r, d) => (some r, d)
    | (none, _) => (none, ⊤)

/-- Distance of one consecutive step of calculate_total_distance of routing.py: the
direct distance, or the find_detour distance when the direct one is infinite. -/
def ctd_step (ctx : Ctx) (a b : Loc) : RDist :=
  let d := get_distance ctx a b
  if d = ⊤ then (find_detour ctx a b).2 else d

/-- Embeds calculate_total_distance of routing.py. The source returns infinity as soon
as one step is infinite; since the top element absorbs addition, summing all steps is
the same value. -/
def calculate_total_distance (ctx : Ctx) : List Loc → RDist
  | [] => 0
  | [_] => 0
  | a :: b :: rest => ctd_step ctx a b + calculate_total_distance ctx (b :: rest)

/-- Modelled from the spec: check_constraints is imported from config by routing.py,
routing_optimization.py and game_engine.py but is defined nowhere in the repository.
Section 4.2 of the specification describes it: for every constraint (before, after)
such that both locations appear in the route, the first index of before must be smaller
than the first index of after. -/
def check_constraints (ctx : Ctx) (route : List Loc) : Bool :=
  ctx.constraints.all fun c =>
    !route.contains c.1 || !route.contains c.2 ||
      decide (route.indexOf c.1 < route.indexOf c.2)

/-- First location usable as the single intermediate hop of a detour, in the iteration
order of the LOCATIONS dict. -/
def first_open_via (ctx : Ctx) (a b : Loc) : Option Loc :=
  ctx.locations.find? (fdPred ctx a b)

theorem find_detour_aux_eq_find (ctx : Ctx) (a b : Loc) (l : List Loc) :
    find_detour_aux ctx a b l =
      match l.find? (fdPred ctx a b) with
      | some v => (some [a, v, b], get_distance ctx a v + get_distance ctx v b)
      | none => (none, ⊤) := by
  induction l with
  | nil => rfl
  | cons via rest ih =>
    by_cases h : fdPred ctx a b via
    · simp [find_detour_aux, h, List.find?]
    · simp only [Bool.not_eq_true] at h
      simp [find_detour_aux, h, List.find?, ih]

/-- Decidable equality for Except values, used to evaluate concrete runs. -/
instance {ε α : Type} [DecidableEq ε] [DecidableEq α] : DecidableEq (Except ε α) := fun x y =>
  match x, y with
  | .ok a, .ok b => if h : a = b then isTrue (by rw [h]) else isFalse (by simp [h])
  | .error a, .error b => if h : a = b then isTrue (by rw [h]) else isFalse (by simp [h])
  | .ok _, .error _ => isFalse (by simp)
  | .error _, .ok _ => isFalse (by simp)

/-- Action dict of the source, a tagged variant of the action and package_id fields. -/
inductive RAction where
  | visit (loc : Loc)
  | pickup (loc : Loc) (pid : ℕ)
  | deliver (loc : Loc) (pid : ℕ)
deriving DecidableEq

/-- Location field of an action dict. -/
def RAction.location : RAction → Loc
  | .visit l => l
  | .pickup l _ => l
  | .deliver l _ => l

/-- Result triple of the solvers: action_route, route_path, total_distance. -/
abbrev Triple := List RAction × List Loc × RDist

/-- Environment values the source obtains from the networkx library and from Python set
iteration order; the embedding takes them as explicit inputs instead of reproducing the
library internals. mst is the depth-first preorder of the minimum spanning tree that
mst_approximation reads from networkx (none when the library reports the weighted graph
disconnected); spw is the weighted nx.shortest_path used by strategic_package_handling;
bfs is the unweighted nx.shortest_path used by fallback_route (none models the caught
NetworkXNoPath); setOrd is the iteration order of a Python set given as the list of its
elements. -/
structure Oracles where
  mst : Option (List Loc)
  spw : Loc → Loc → Option (List Loc)
  bfs : Loc → Loc → Option (List Loc)
  setOrd : List Loc → List Loc

/-- Reversal of the slice [i : j+1] of a list, the Python statement
new_route[i:j+1] = reversed(new_route[i:j+1]). -/
def reverse_segment (l : List Loc) (i j : ℕ) : List Loc :=
  l.take i ++ ((l.drop i).take (j + 1 - i)).reverse ++ l.drop (j + 1)

/-- Candidate routes examined by one sweep of the nested loops of apply_two_opt, in
loop order: i from 1 to len-3 and j from i+1 to len-2, both inclusive. -/
def two_opt_moves (l : List Loc) : List (List Loc) :=
  (List.range' 1 (l.length - 3)).flatMap fun i =>
    (List.range' (i + 1) (l.length - 2 - i)).map fun j => reverse_segment l i j

/-- One full sweep of the inner loops shared by apply_two_opt and apply_three_opt: each
candidate move must satisfy check_constraints and strictly improve the best distance;
the sweep carries the best route, its distance, and the improved flag. -/
def opt_sweep (ctx : Ctx) : List (List Loc) → List Loc × RDist → Bool →
    (List Loc × RDist) × Bool
  | [], best, improved => (best, improved)
  | m :: ms, best, improved =>
    if check_constraints ctx m then
      let nd := calculate_total_distance ctx m
      if nd < best.2 then opt_sweep ctx ms (m, nd) true
      else opt_sweep ctx ms best improved
    else opt_sweep ctx ms best improved

/-- While loop of apply_two_opt and apply_three_opt: repeat sweeps while one improved
and the iteration cap is not reached; the fuel is the iteration cap of the source. -/
def opt_loop (ctx : Ctx) (moves : List Loc → List (List Loc)) :
    ℕ → List Loc → List Loc × RDist → List Loc
  | 0, _, best => best.1
  | fuel + 1, locRoute, best =>
    let r := opt_sweep ctx (moves locRoute) best false
    if r.2 then opt_loop ctx moves fuel r.1.1 r.1
    else r.1.1

/-- Embeds apply_two_opt of routing_optimization.py with its iteration cap of 100.
The source accepts either a location list or an action-dict list and immediately
projects the latter to its location list; the embedding takes the location list. -/
def apply_two_opt (ctx : Ctx) (route : List Loc) : List Loc :=
  opt_loop ctx two_opt_moves 100 route (route, calculate_total_distance ctx route)

/-- Reconnection number 3 of apply_three_opt, the Python statements
tmp = new_route[j:k+1] + new_route[i:j]; new_route[i:k+1] = tmp. -/
def splice_segment (l : List Loc) (i j k : ℕ) : List Loc :=
  l.take i ++ ((l.drop j).take (k + 1 - j) ++ (l.drop i).take (j - i)) ++ l.drop (k + 1)

/-- Candidate routes examined by one sweep of apply_three_opt, in loop order: i in
range(1, min(len-4, 4)), j in range(2, min(len-2, 5)), k in range(3, min(len-1, 7)),
only triples with i < j < k, and for each triple the four reconnection patterns. -/
def three_opt_moves (l : List Loc) : List (List Loc) :=
  (List.range' 1 (min (l.length - 4) 4 - 1)).flatMap fun i =>
    (List.range' 2 (min (l.length - 2) 5 - 2)).flatMap fun j =>
      (List.range' 3 (min (l.length - 1) 7 - 3)).flatMap fun k =>
        if i < j ∧ j < k then
          [reverse_segment l i j, reverse_segment l j k, reverse_segment l i k,
            splice_segment l i j k]
        else []

/-- Embeds apply_three_opt of routing_optimization.py: routes shorter than 6 locations
are returned unchanged, otherwise at most 5 sweep iterations run. -/
def apply_three_opt (ctx : Ctx) (route : List Loc) : List Loc :=
  if route.length < 6 then route
  else opt_loop ctx three_opt_moves 5 route (route, calculate_total_distance ctx route)

/-- First index of a value at or after position s, the Python call list.index(v, s),
with none for the ValueError case. -/
def index_from (l : List Loc) (v : Loc) (s : ℕ) : Option ℕ :=
  ((l.drop s).indexOf? v).map (fun k => k + s)

/-- Body of the package loop of strategic_package_handling for one package available at
the location current_loc found at position i: look for the delivery location strictly
after i, ask the weighted shortest-path oracle, and splice the shorter path in when it
improves the distance and keeps the constraints. Returns the route and whether the
improvement flag was set. -/
def sph_try_package (ctx : Ctx) (orc : Oracles) (current_loc : Loc) (r : List Loc)
    (i : ℕ) (pkg : Package) : List Loc × Bool :=
  match index_from r pkg.delivery (i + 1) with
  | none => (r, false)
  | some delivery_idx =>
    if delivery_idx > i + 1 then
      match orc.spw current_loc pkg.delivery with
      | none => (r, false)
      | some sp =>
        let current_path := (r.drop i).take (delivery_idx + 1 - i)
        if sp.length < current_path.length then
          if calculate_total_distance ctx sp < calculate_total_distance ctx current_path
          then
            let test_route := r.take i ++ sp ++ r.drop (delivery_idx + 1)
            if check_constraints ctx test_route then (test_route, true) else (r, false)
          else (r, false)
        else (r, false)
    else (r, false)

/-- Inner index loop of strategic_package_handling. The range of indices is computed
from the route length at loop entry, while the route may be replaced by a shorter one
inside the loop; the source then indexes out of bounds and raises, which the embedding
reports as an error. -/
def sph_index_loop (ctx : Ctx) (orc : Oracles) (packages : List Package) :
    List ℕ → List Loc → Bool → Except Unit (List Loc × Bool)
  | [], r, improved => .ok (r, improved)
  | i :: is, r, improved =>
    if i < r.length then
      let current_loc := r.getD i ""
      let packages_here :=
        if ctx.locations.contains current_loc then
          packages.filter (fun p => p.pickup == current_loc)
        else []
      let step := packages_here.foldl
        (fun acc p =>
          let s := sph_try_package ctx orc current_loc acc.1 i p
          (s.1, acc.2 || s.2))
        (r, improved)
      sph_index_loop ctx orc packages is step.1 step.2
    else .error ()

/-- Outer while loop of strategic_package_handling, capped at 3 iterations. -/
def sph_loop (ctx : Ctx) (orc : Oracles) (packages : List Package) :
    ℕ → List Loc → Except Unit (List Loc)
  | 0, r => .ok r
  | fuel + 1, r => do
    let s ← sph_index_loop ctx orc packages (List.range (r.length - 1)) r false
    if s.2 then sph_loop ctx orc packages fuel s.1 else .ok s.1

/-- Embeds strategic_package_handling of routing_optimization.py. -/
def strategic_package_handling (ctx : Ctx) (orc : Oracles) (route : List Loc)
    (packages : List Package) : Except Unit (List Loc) :=
  if route = [] then .ok route
  else if route.length ≤ 1 then .ok route
  else sph_loop ctx orc packages 3 route

/-- Status values of the packages_to_handle dict of create_action_route. -/
inductive PStatus where
  | waiting
  | picked_up
  | delivered
deriving DecidableEq

/-- Entry of the packages_to_handle dict of create_action_route: key and value fields
in insertion order. -/
structure PTrack where
  id : ℕ
  pickup : Loc
  delivery : Loc
  status : PStatus
deriving DecidableEq

/-- Builds the packages_to_handle dict: one entry per package id, in first-insertion
order, a later duplicate id overwriting the stored value in place. -/
def ptracks_init (packages : List Package) : List PTrack :=
  packages.foldl
    (fun acc p =>
      if acc.any (fun t => t.id == p.id) then
        acc.map fun t =>
          if t.id == p.id then
            { t with pickup := p.pickup, delivery := p.delivery, status := .waiting }
          else t
      else acc ++ [⟨p.id, p.pickup, p.delivery, .waiting⟩])
    []

/-- Updates the status stored for one package id. -/
def track_set_status (tracks : List PTrack) (pid : ℕ) (st : PStatus) : List PTrack :=
  tracks.map fun t => if t.id == pid then { t with status := st } else t

/-- Mutable state of the walk of create_action_route: the action list, the visited set,
the carried package id, and the packages_to_handle dict. -/
structure CarState where
  actions : List RAction
  visited : List Loc
  carrying : Option ℕ
  tracks : List PTrack
deriving DecidableEq

/-- Appends a visit action when the location was not visited yet. -/
def car_visit_if_new (s : CarState) (loc : Loc) : CarState :=
  if s.visited.contains loc then s
  else { s with actions := s.actions ++ [.visit loc], visited := s.visited ++ [loc] }

/-- Delivery check of create_action_route: when carrying a package whose delivery
location is here, append a deliver action and free the capacity. -/
def car_deliver_check (s : CarState) (loc : Loc) : CarState :=
  match s.carrying with
  | none => s
  | some cid =>
    match s.tracks.find? (fun t => t.id == cid) with
    | none => s
    | some t =>
      if t.delivery == loc then
        { s with actions := s.actions ++ [.deliver loc cid],
                 tracks := track_set_status s.tracks cid .delivered,
                 carrying := none }
      else s

/-- Pickup check of create_action_route: when carrying nothing, pick up the first
waiting package of the dict whose pickup location is here. -/
def car_pickup_check (s : CarState) (loc : Loc) : CarState :=
  match s.carrying with
  | some _ => s
  | none =>
    match s.tracks.find? (fun t => t.pickup == loc && t.status == PStatus.waiting) with
    | none => s
    | some t =>
      { s with actions := s.actions ++ [.pickup loc t.id],
               tracks := track_set_status s.tracks t.id .picked_up,
               carrying := some t.id }

/-- Intermediate locations of the detour inserted by create_action_route between two
consecutive route locations whose direct road is closed: the segment path without its
endpoints, and only when that path has an intermediate location at all. -/
def car_detour_locs (ctx : Ctx) (current next : Loc) : List Loc :=
  if is_road_closed ctx current next then
    match (calculate_segment_path ctx current next).1 with
    | some p => if p.length > 2 then (p.drop 1).dropLast else []
    | none => []
  else []

/-- One iteration of the main walk of create_action_route: handle the detour locations
in order (visit, deliver check, pickup check each), then the next location itself. -/
def car_step (ctx : Ctx) (s : CarState) (current next : Loc) : CarState :=
  let s1 := (car_detour_locs ctx current next).foldl
    (fun acc dl => car_pickup_check (car_deliver_check (car_visit_if_new acc dl) dl) dl)
    s
  car_pickup_check (car_deliver_check (car_visit_if_new s1 next) next) next

/-- Main walk of create_action_route over the tail of the route. -/
def car_walk (ctx : Ctx) : CarState → Loc → List Loc → CarState
  | s, _, [] => s
  | s, current, next :: rest => car_walk ctx (car_step ctx s current next) next rest

/-- Visit actions the appended completion of create_action_route emits on the way from
current to target: the detour interior, then the target itself, and nothing at all when
no segment path exists or the walker is already there. -/
def goto_visits (ctx : Ctx) (current target : Loc) : List RAction :=
  if current != target then
    match (calculate_segment_path ctx current target).1 with
    | some p => ((p.drop 1).dropLast).map RAction.visit ++ [RAction.visit target]
    | none => []
  else []

/-- Appended completion of create_action_route over the ids of the packages that are
not delivered when the ordering is exhausted: only the packages whose status is still
waiting get a pickup and an immediate delivery appended; a package already picked up
receives nothing here. -/
def car_handle_unfinished (ctx : Ctx) :
    List ℕ → List RAction × Loc × List PTrack → List RAction × Loc × List PTrack
  | [], s => s
  | pid :: rest, (actions, current, tracks) =>
    match tracks.find? (fun t => t.id == pid) with
    | none => car_handle_unfinished ctx rest (actions, current, tracks)
    | some t =>
      if t.status == PStatus.waiting then
        let a1 := actions ++ goto_visits ctx current t.pickup ++ [.pickup t.pickup pid]
        let tr1 := track_set_status tracks pid .picked_up
        let a2 := a1 ++ goto_visits ctx t.pickup t.delivery ++ [.deliver t.delivery pid]
        let tr2 := track_set_status tr1 pid .delivered
        car_handle_unfinished ctx rest (a2, t.delivery, tr2)
      else car_handle_unfinished ctx rest (actions, current, tracks)

/-- Embeds create_action_route of routing.py. The source indexes route[0] and raises on
an empty route; no embedded caller passes one, and the embedding returns the empty
action list there. -/
def create_action_route (ctx : Ctx) (packages : List Package) (route : List Loc) :
    List RAction :=
  match route with
  | [] => []
  | r0 :: rest =>
    let s0 : CarState :=
      { actions := [.visit r0], visited := [r0], carrying := none,
        tracks := ptracks_init packages }
    let s := car_walk ctx s0 r0 rest
    let unhandled := (s.tracks.filter (fun t => t.status != PStatus.delivered)).map
      (fun t => t.id)
    if unhandled = [] then s.actions
    else
      let current := ((s.actions.getLast?).map RAction.location).getD ""
      (car_handle_unfinished ctx unhandled (s.actions, current, s.tracks)).1

/-- Package scan of validate_optimal_route of routing.py: walks the actions tracking
the carried package and the set of handled ids; none is the rejection of the route,
otherwise the final carried id and the handled set are returned. -/
def pd_scan : Option ℕ → List ℕ → List RAction → Option (Option ℕ × List ℕ)
  | carrying, handled, [] => some (carrying, handled)
  | carrying, handled, a :: rest =>
    match a with
    | .visit _ => pd_scan carrying handled rest
    | .pickup _ pid =>
      match carrying with
      | some _ => none
      | none =>
        pd_scan (some pid) (if handled.contains pid then handled else handled ++ [pid])
          rest
    | .deliver _ pid =>
      if carrying == some pid then pd_scan none handled rest else none

/-- Segment check of validate_optimal_route: every consecutive pair of the path must
have a segment path and a finite segment distance. -/
def segments_ok (ctx : Ctx) : List Loc → Bool
  | [] => true
  | [_] => true
  | a :: b :: rest =>
    let r := calculate_segment_path ctx a b
    if r.1.isSome && decide (r.2 ≠ ⊤) then segments_ok ctx (b :: rest) else false

/-- Embeds validate_optimal_route of routing.py: nonempty route and path, the package
scan accepts, every package is handled, the two hard-coded ordering constraints hold on
the path, and every consecutive segment resolves. -/
def validate_optimal_route (ctx : Ctx) (route : List RAction) (path : List Loc)
    (packages : List Package) : Bool :=
  if route = [] ∨ path = [] then false
  else
    match pd_scan none [] route with
    | none => false
    | some (_, handled) =>
      if handled.length ≠ packages.length then false
      else if path.contains "Warehouse" && path.contains "Shop" &&
          decide (path.indexOf "Shop" < path.indexOf "Warehouse") then false
      else if path.contains "Distribution Center" && path.contains "Home" &&
          decide (path.indexOf "Home" < path.indexOf "Distribution Center") then false
      else segments_ok ctx path

/-- Step distance of calculate_route_distance of routing.py: find_detour when the road
is closed, calculate_segment_path otherwise. -/
def crd_seg (ctx : Ctx) (a b : Loc) : Option (List Loc) × RDist :=
  if is_road_closed ctx a b then find_detour ctx a b else calculate_segment_path ctx a b

/-- Tail of the assembly loop of calculate_route_distance: every segment after the
first contributes its path without the first element. -/
def crd_rest (ctx : Ctx) : List Loc → Option (List Loc × RDist)
  | [] => some ([], 0)
  | [_] => some ([], 0)
  | a :: b :: rest =>
    let seg := crd_seg ctx a b
    if seg.2 = ⊤ then none
    else
      match crd_rest ctx (b :: rest) with
      | none => none
      | some (tp, td) => some (((seg.1.getD []).drop 1) ++ tp, seg.2 + td)

/-- Embeds calculate_route_distance of routing.py for a route given as a location list
(the action-dict variant projects to its location list first). -/
def calculate_route_distance (ctx : Ctx) (route : List Loc) :
    Option (List Loc) × RDist :=
  match route with
  | [] => (none, 0)
  | [_] => (none, 0)
  | a :: b :: rest =>
    let seg := crd_seg ctx a b
    if seg.2 = ⊤ then (none, ⊤)
    else
      match crd_rest ctx (b :: rest) with
      | none => (none, ⊤)
      | some (tp, td) => (some ((seg.1.getD []) ++ tp), seg.2 + td)

/-- Selection of the nearest reachable location of nearest_neighbor_route: fold over
the remaining locations keeping the strictly smallest distance, where the distance of
one candidate is the direct distance or, when infinite, the find_detour distance (the
same step as calculate_total_distance). -/
def nn_select (ctx : Ctx) (current : Loc) (remaining : List Loc) : Option Loc :=
  (remaining.foldl
    (fun (acc : Option Loc × RDist) loc =>
      let d := ctd_step ctx current loc
      if d < acc.2 then (some loc, d) else acc)
    (none, ⊤)).1

/-- While loop of nearest_neighbor_route; the fuel is the initial number of remaining
locations, and every iteration removes exactly one of them. -/
def nearest_neighbor_aux (ctx : Ctx) : ℕ → List Loc → List Loc → List Loc
  | 0, route, _ => route
  | fuel + 1, route, remaining =>
    if remaining = [] then route
    else
      let current := (route.getLast?).getD ""
      match nn_select ctx current remaining with
      | none => route
      | some nearest =>
        nearest_neighbor_aux ctx fuel (route ++ [nearest]) (remaining.erase nearest)

/-- Embeds nearest_neighbor_route of routing.py. -/
def nearest_neighbor_route (ctx : Ctx) (start : Loc) (locations : List Loc) :
    List Loc :=
  let remaining := locations.filter (fun loc => loc != start)
  nearest_neighbor_aux ctx remaining.length [start] remaining

/-- Farthest reachable location of insertion_route: fold keeping the strictly largest
finite distance, starting from the initial max_dist of -1. -/
def ins_farthest (ctx : Ctx) (start : Loc) (remaining : List Loc) : Option Loc :=
  (remaining.foldl
    (fun (acc : Option Loc × RDist) loc =>
      let d := ctd_step ctx start loc
      if acc.2 < d ∧ d ≠ ⊤ then (some loc, d) else acc)
    (none, ((-1 : ℚ) : RDist))).1

/-- Insertion cost of one location at one position of insertion_route: none when any of
the three distances involved is infinite, otherwise the increase in tour length. -/
def ins_increase (ctx : Ctx) (route : List Loc) (loc : Loc) (i : ℕ) : Option ℚ :=
  let prev := route.getD (i - 1) ""
  let next := route.getD i ""
  let current_dist := ctd_step ctx prev next
  let dist1 := ctd_step ctx prev loc
  let dist2 := ctd_step ctx loc next
  match current_dist, dist1, dist2 with
  | some c, some d1, some d2 => some (d1 + d2 - c)
  | _, _, _ => none

/-- Scan of insertion_route over every remaining location and every insertion position,
keeping the strictly smallest increase; positions run from 1 to the route length minus
one, inclusive. -/
def ins_best (ctx : Ctx) (route : List Loc) (remaining : List Loc) :
    Option (Loc × ℕ) :=
  (remaining.foldl
    (fun acc loc =>
      (List.range' 1 (route.length - 1)).foldl
        (fun (a : Option (Loc × ℕ) × RDist) i =>
          match ins_increase ctx route loc i with
          | none => a
          | some inc => if (inc : RDist) < a.2 then (some (loc, i), (inc : RDist)) else a)
        acc)
    ((none, ⊤) : Option (Loc × ℕ) × RDist)).1

/-- Insertion loop of insertion_route; the fuel is the number of remaining locations. -/
def insertion_aux (ctx : Ctx) : ℕ → List Loc → List Loc → List Loc
  | 0, route, _ => route
  | fuel + 1, route, remaining =>
    if remaining = [] then route
    else
      match ins_best ctx route remaining with
      | none => route
      | some (loc, pos) =>
        insertion_aux ctx fuel (route.insertIdx pos loc) (remaining.erase loc)

/-- Embeds insertion_route of routing.py: seed with the farthest reachable location
closing a two-node loop, then repeatedly insert the cheapest remaining location. -/
def insertion_route (ctx : Ctx) (start : Loc) (locations : List Loc) : List Loc :=
  let remaining := locations.filter (fun loc => loc != start)
  match ins_farthest ctx start remaining with
  | none => [start]
  | some far =>
    insertion_aux ctx (remaining.erase far).length [start, far, start]
      (remaining.erase far)

/-- Embeds mst_approximation of routing.py. The graph construction, the connectivity
test and the spanning-tree traversal happen inside networkx; the oracle supplies the
resulting depth-first preorder (none when the library reports the graph disconnected),
and the embedded part is the final source check that the preorder covers exactly the
intended node set. -/
def mst_approximation (orc : Oracles) (start : Loc) (locations : List Loc) :
    Option (List Loc) :=
  let all_locs := start :: locations.filter (fun loc => loc != start)
  match orc.mst with
  | none => none
  | some dfs_path =>
    if all_locs.all (fun l => dfs_path.contains l) &&
        dfs_path.all (fun l => all_locs.contains l) then some dfs_path
    else none

/-- Embeds the constraint-based candidate of solve_tsp_improved: start location first,
then Warehouse, Distribution Center, Shop and Home in this order when present among the
remaining locations, then the leftover locations in Python set iteration order. -/
def constraint_route_build (orc : Oracles) (start : Loc) (locations : List Loc) :
    List Loc :=
  let rem0 := (locations.dedup).filter (fun loc => loc != start)
  let step := fun (acc : List Loc × List Loc) (name : Loc) =>
    if acc.2.contains name then (acc.1 ++ [name], acc.2.erase name) else acc
  let r := ["Warehouse", "Distribution Center", "Shop", "Home"].foldl step ([start], rem0)
  r.1 ++ orc.setOrd r.2

/-- Entries of select_each are each element of the list paired with the rest of the
list in order; this is the recursion underlying the itertools permutation order. -/
def select_each : List Loc → List (Loc × List Loc)
  | [] => []
  | x :: xs => (x, xs) :: (select_each xs).map (fun p => (p.1, x :: p.2))

/-- Permutation enumeration in the order of itertools.permutations; the fuel equals the
list length at every call. -/
def py_permutations_aux : ℕ → List Loc → List (List Loc)
  | 0, _ => [[]]
  | fuel + 1, l =>
    (select_each l).flatMap fun p => (py_permutations_aux fuel p.2).map (p.1 :: ·)

/-- All permutations of a list in itertools order. -/
def py_permutations (l : List Loc) : List (List Loc) :=
  py_permutations_aux l.length l

/-- Permutations the brute-force stage of solve_tsp_improved examines before stopping:
all of them when there are at most 6 locations (max_perms is None there), and the first
1000 otherwise, because the loop breaks when the count first exceeds max_perms. -/
def brute_force_examined (locations : List Loc) : List (List Loc) :=
  if locations.length > 6 then (py_permutations locations).take 1000
  else py_permutations locations

/-- Permutations the brute-force stage keeps: among the examined ones, those starting
at the start location and satisfying check_constraints. -/
def brute_force_valid_perms (ctx : Ctx) (start : Loc) (locations : List Loc) :
    List (List Loc) :=
  (brute_force_examined locations).filter fun p =>
    p.head? == some start && check_constraints ctx p

/-- Selection shared by the brute-force stage and the final candidate selection of
solve_tsp_improved: the first route of strictly smallest calculate_total_distance, none
when every distance is infinite or the list is empty. -/
def best_by_distance (ctx : Ctx) (routes : List (List Loc)) : Option (List Loc) :=
  (routes.foldl
    (fun (acc : Option (List Loc) × RDist) r =>
      let d := calculate_total_distance ctx r
      if d < acc.2 then (some r, d) else acc)
    (none, ⊤)).1

/-- Embeds the brute-force stage of solve_tsp_improved, lines 446 to 481 of routing.py:
it only runs for at most 8 locations, and contributes the best valid permutation. -/
def brute_force_candidate (ctx : Ctx) (start : Loc) (locations : List Loc) :
    Option (List Loc) :=
  if locations.length ≤ 8 then
    best_by_distance ctx (brute_force_valid_perms ctx start locations)
  else none

/-- Embeds find_valid_path of fallback_route. The source calls nx.shortest_path on the
open-edge graph whose nodes are exactly the locations argument; when an endpoint is not
a node the library raises NodeNotFound, which the except clause for NetworkXNoPath does
not catch, so the exception escapes fallback_route: that is the error case here. When
both endpoints are nodes, the unweighted shortest-path oracle answers (none standing
for the caught NetworkXNoPath). -/
def find_valid_path (nodes : List Loc) (bfs : Loc → Loc → Option (List Loc))
    (u v : Loc) : Except Unit (Option (List Loc)) :=
  if nodes.contains u && nodes.contains v then .ok (bfs u v) else .error ()

/-- One constraint block of fallback_route: when the target is not in the sequence yet,
find a path from the current tail to it and append the path without its head. -/
def fallback_extend (orc : Oracles) (locations : List Loc) (target : Loc)
    (seq : List Loc) : Except Unit (List Loc) :=
  if seq.contains target then .ok seq
  else do
    let p ← find_valid_path locations orc.bfs ((seq.getLast?).getD "") target
    match p with
    | some path => .ok (seq ++ path.drop 1)
    | none => .ok seq

/-- Position search of the ensure-all loop of fallback_route: the first insertion index
from 1 on where the extended sequence keeps the constraints and both neighbours of the
inserted location are reachable by an open road. -/
def fallback_insert_pos (ctx : Ctx) (seq : List Loc) (loc : Loc) : Option ℕ :=
  (List.range' 1 (seq.length - 1)).find? fun i =>
    let test_seq := seq.insertIdx i loc
    check_constraints ctx test_seq &&
      !is_road_closed ctx (test_seq.getD (i - 1) "") loc &&
      (if i + 1 < test_seq.length then !is_road_closed ctx loc (test_seq.getD (i + 1) "")
       else true)

/-- Ensure-all loop of fallback_route: every configured location still missing from the
sequence is inserted at the first acceptable position, or silently dropped when no
position fits. -/
def fallback_ensure_all (ctx : Ctx) (locations : List Loc) (seq0 : List Loc) :
    List Loc :=
  locations.foldl
    (fun seq loc =>
      if seq.contains loc then seq
      else
        match fallback_insert_pos ctx seq loc with
        | some i => seq.insertIdx i loc
        | none => seq)
    seq0

/-- Reorder branch of fallback_route, its last resort when the built sequence violates
the constraints: start, then the four special locations in order when present, then the
leftovers in Python set iteration order. -/
def fallback_reorder (orc : Oracles) (start : Loc) (seq : List Loc) : List Loc :=
  let rem0 := (seq.dedup).filter (fun loc => loc != start)
  let step := fun (acc : List Loc × List Loc) (name : Loc) =>
    if acc.2.contains name && name != start then (acc.1 ++ [name], acc.2.erase name)
    else acc
  let r := ["Warehouse", "Distribution Center", "Shop", "Home"].foldl step
    ([start], rem0)
  r.1 ++ orc.setOrd r.2

/-- Total distance of the fallback route, lines 747 to 757 of routing.py: the sum over
consecutive pairs of the finite segment distances, each infinite segment contributing
nothing at all. -/
def fallback_total (ctx : Ctx) : List Loc → RDist
  | [] => 0
  | [_] => 0
  | a :: b :: rest =>
    let d := (calculate_segment_path ctx a b).2
    if d ≠ ⊤ then d + fallback_total ctx (b :: rest)
    else fallback_total ctx (b :: rest)

/-- Embeds fallback_route of routing.py. The valid_path computation of lines 714 to 745
reads nothing into the returned triple and is omitted. The packages argument of the
source is never used by its body. -/
def fallback_route (ctx : Ctx) (orc : Oracles) (start : Loc) (locations : List Loc) :
    Except Unit Triple := do
  let seq1 ← fallback_extend orc locations "Warehouse" [start]
  let seq2 ← fallback_extend orc locations "Distribution Center" seq1
  let seq3 ← fallback_extend orc locations "Shop" seq2
  let seq4 ← fallback_extend orc locations "Home" seq3
  let seq5 ←
    if (seq4.getLast?).getD "" ≠ start then do
      let p ← find_valid_path locations orc.bfs ((seq4.getLast?).getD "") start
      match p with
      | some path => pure (seq4 ++ path.drop 1)
      | none => pure seq4
    else pure seq4
  let seq6 := fallback_ensure_all ctx locations seq5
  let seq7 := if check_constraints ctx seq6 then seq6 else fallback_reorder orc start seq6
  .ok (seq7.map RAction.visit, seq7, fallback_total ctx seq7)

/-- Route candidates of solve_tsp_improved in source order: nearest neighbor,
insertion, spanning-tree traversal, constraint-based, brute force, each kept only when
nonempty and satisfying check_constraints (the brute-force stage checks constraints
permutation by permutation already). -/
def candidate_routes (ctx : Ctx) (orc : Oracles) (start : Loc) (locations : List Loc) :
    List (List Loc) :=
  let nn := nearest_neighbor_route ctx start locations
  let c1 := if nn ≠ [] ∧ check_constraints ctx nn then [nn] else []
  let ins := insertion_route ctx start locations
  let c2 := if ins ≠ [] ∧ check_constraints ctx ins then [ins] else []
  let c3 :=
    match mst_approximation orc start locations with
    | some m => if m ≠ [] ∧ check_constraints ctx m then [m] else []
    | none => []
  let cr := constraint_route_build orc start locations
  let c4 := if check_constraints ctx cr then [cr] else []
  let c5 :=
    match brute_force_candidate ctx start locations with
    | some b => [b]
    | none => []
  c1 ++ c2 ++ c3 ++ c4 ++ c5

/-- Improvement stage of solve_tsp_improved: candidates shorter than the location list
are skipped; each surviving candidate contributes its 2-opt, 3-opt and package-handling
improvements, each kept only when nonempty and satisfying check_constraints. -/
def improve_candidates (ctx : Ctx) (orc : Oracles) (locations : List Loc)
    (packages : List Package) : List (List Loc) → Except Unit (List (List Loc))
  | [] => .ok []
  | c :: cs =>
    if c = [] ∨ c.length < locations.length then
      improve_candidates ctx orc locations packages cs
    else do
      let t2 := apply_two_opt ctx c
      let l2 := if t2 ≠ [] ∧ check_constraints ctx t2 then [t2] else []
      let t3 := apply_three_opt ctx c
      let l3 := if t3 ≠ [] ∧ check_constraints ctx t3 then [t3] else []
      let po ← strategic_package_handling ctx orc c packages
      let lp := if po ≠ [] ∧ check_constraints ctx po then [po] else []
      let rest ← improve_candidates ctx orc locations packages cs
      .ok (l2 ++ l3 ++ lp ++ rest)

/-- Consecutive deduplication used when solve_tsp_improved and the distance correction
extract the walked location list from an action route. -/
def dedup_consecutive (l : List Loc) : List Loc :=
  l.foldl (fun acc x => if acc.getLast? == some x then acc else acc ++ [x]) []

/-- Tail of the path assembly of solve_tsp_improved: each segment after the first
contributes its path without the first element. -/
def assemble_rest (ctx : Ctx) : List Loc → Option (List Loc × RDist)
  | [] => some ([], 0)
  | [_] => some ([], 0)
  | a :: b :: rest =>
    match calculate_segment_path ctx a b with
    | (some p, d) =>
      match assemble_rest ctx (b :: rest) with
      | some (tp, td) => some (p.drop 1 ++ tp, d + td)
      | none => none
    | (none, _) => none

/-- Path assembly of solve_tsp_improved, lines 545 to 558 of routing.py: none as soon
as one segment has no path, which the source answers with the fallback route. -/
def assemble_path (ctx : Ctx) (loc_route : List Loc) : Option (List Loc × RDist) :=
  match loc_route with
  | [] => some ([], 0)
  | [_] => some ([], 0)
  | a :: b :: rest =>
    match calculate_segment_path ctx a b with
    | (some p, d) =>
      match assemble_rest ctx (b :: rest) with
      | some (tp, td) => some (p ++ tp, d + td)
      | none => none
    | (none, _) => none

/-- Embeds solve_tsp_improved of routing.py: generate candidates, improve them, take
the best by distance, build the action route and the full path, validate, and fall back
on any failure. The error value models an exception escaping the Python function. -/
def solve_tsp_improved (ctx : Ctx) (orc : Oracles) (start : Loc)
    (locations : List Loc) : Except Unit Triple := do
  let packages := ctx.packages
  let cands := candidate_routes ctx orc start locations
  let improved ← improve_candidates ctx orc locations packages cands
  match best_by_distance ctx improved with
  | none => fallback_route ctx orc start locations
  | some best =>
    let action_route := create_action_route ctx packages best
    let loc_route := dedup_consecutive (action_route.map RAction.location)
    match assemble_path ctx loc_route with
    | none => fallback_route ctx orc start locations
    | some (full_path, total) =>
      if full_path ≠ [] ∧ validate_optimal_route ctx action_route full_path packages
      then .ok (action_route, full_path, total)
      else fallback_route ctx orc start locations

/-- Distance lookup with the placeholder default 300, the expression
DISTANCES.get((a, b), DISTANCES.get((b, a), 300)) of the fallback branches of
solve_tsp. -/
def dget300 (ctx : Ctx) (a b : Loc) : ℚ :=
  (lookupDist ctx (a, b)).getD ((lookupDist ctx (b, a)).getD 300)

/-- Sum of the placeholder distance lookups over the consecutive pairs of a path, used
by the minimal fallback, the exception fallback and the distance correction of
solve_tsp. -/
def dist300_sum (ctx : Ctx) : List Loc → ℚ
  | [] => 0
  | [_] => 0
  | a :: b :: rest => dget300 ctx a b + dist300_sum ctx (b :: rest)

/-- Embeds the minimal-route branch of solve_tsp, lines 888 to 939 of routing.py. Line
928 of the source is a syntax error; it is modelled with the bracketing that makes it
parse, namely p not in ([warehouse_to_shop, dc_to_home] if both exist else packages),
under which no remaining package is appended unless both special packages exist. -/
def minimal_fallback (ctx : Ctx) : Triple :=
  let packages := ctx.packages
  let rp : List Loc := ["Warehouse", "Distribution Center", "Shop", "Home"]
  let w2s := packages.find? fun p => p.pickup == "Warehouse" && p.delivery == "Shop"
  let d2h := packages.find? fun p =>
    p.pickup == "Distribution Center" && p.delivery == "Home"
  let ar := [RAction.visit "Warehouse"]
    ++ (match w2s with
        | some p => [RAction.pickup "Warehouse" p.id]
        | none => [])
    ++ [RAction.visit "Distribution Center"]
    ++ (match d2h with
        | some p => [RAction.pickup "Distribution Center" p.id]
        | none => [])
    ++ [RAction.visit "Shop"]
    ++ (match w2s with
        | some p => [RAction.deliver "Shop" p.id]
        | none => [])
    ++ [RAction.visit "Home"]
    ++ (match d2h with
        | some p => [RAction.deliver "Home" p.id]
        | none => [])
    ++ (packages.filter fun p =>
          if w2s.isSome && d2h.isSome then
            decide (some p ≠ w2s) && decide (some p ≠ d2h)
          else false).flatMap
        (fun p => [RAction.pickup p.pickup p.id, RAction.deliver p.delivery p.id])
  (ar, rp, (dist300_sum ctx rp : RDist))

/-- Embeds the exception fallback of solve_tsp, lines 941 to 988 of routing.py, the
branch every escaped exception of the solver lands in. -/
def except_fallback (ctx : Ctx) : Triple :=
  let packages := ctx.packages
  let rp : List Loc := ["Warehouse", "Distribution Center", "Shop", "Home"]
  let ar0 := [RAction.visit "Warehouse"]
  let ar :=
    if packages ≠ [] then
      let wpkg := packages.find? fun p => p.pickup == "Warehouse"
      let ar1 := ar0 ++
        (match wpkg with
         | some p => [RAction.pickup "Warehouse" p.id, RAction.deliver p.delivery p.id]
         | none => [])
      let ar2 := ar1 ++ [RAction.visit "Distribution Center"]
      let dpkg := packages.find? fun p => p.pickup == "Distribution Center"
      let ar3 := ar2 ++
        (match dpkg with
         | some p =>
           [RAction.pickup "Distribution Center" p.id, RAction.deliver p.delivery p.id]
         | none => [])
      let ar4 := ar3 ++
        (if ¬ (ar3.map RAction.location).contains "Shop" then [RAction.visit "Shop"]
         else [])
      let ar5 := ar4 ++
        (if ¬ (ar4.map RAction.location).contains "Home" then [RAction.visit "Home"]
         else [])
      ar5 ++
        (packages.filter fun p => decide (some p ≠ wpkg) && decide (some p ≠ dpkg)).flatMap
          (fun p => [RAction.pickup p.pickup p.id, RAction.deliver p.delivery p.id])
    else ar0
  (ar, rp, (dist300_sum ctx rp : RDist))

/-- Package-handling validation loop of solve_tsp, lines 806 to 832 of routing.py: the
flag reports the first inconsistency (second pickup while carrying, or delivery of a
package not carried), and the handled set collects picked ids up to that point. -/
def stv_pkg_scan : Option ℕ → List ℕ → List RAction → Bool × List ℕ
  | _, handled, [] => (false, handled)
  | carrying, handled, a :: rest =>
    match a with
    | .visit _ => stv_pkg_scan carrying handled rest
    | .pickup _ pid =>
      match carrying with
      | some _ => (true, handled)
      | none =>
        stv_pkg_scan (some pid)
          (if handled.contains pid then handled else handled ++ [pid]) rest
    | .deliver _ pid =>
      if carrying == some pid then stv_pkg_scan none handled rest else (true, handled)

/-- Closed-road scan of solve_tsp over consecutive pairs of the route path. -/
def path_has_closed_road (ctx : Ctx) : List Loc → Bool
  | [] => false
  | [_] => false
  | a :: b :: rest => is_road_closed ctx a b || path_has_closed_road ctx (b :: rest)

/-- Insertion of one missing location by the repair branch of solve_tsp: Shop goes
right after Warehouse and Home right after Distribution Center when those are present,
anything else is appended at the end. -/
def repair_insert (temp : List Loc) (loc : Loc) : List Loc :=
  if loc == "Shop" && temp.contains "Warehouse" then
    temp.insertIdx (temp.indexOf "Warehouse" + 1) loc
  else if loc == "Home" && temp.contains "Distribution Center" then
    temp.insertIdx (temp.indexOf "Distribution Center" + 1) loc
  else temp ++ [loc]

/-- Action-route rebuild of the repair branch of solve_tsp: for each location of the
repaired path, all existing actions at that location, or a fresh visit. -/
def rebuild_actions (ar : List RAction) (rp : List Loc) : List RAction :=
  rp.flatMap fun loc =>
    let la := ar.filter fun a => a.location == loc
    if la ≠ [] then la else [RAction.visit loc]

/-- Embeds the missing-location repair of solve_tsp, lines 839 to 884 of routing.py. -/
def solve_tsp_repair (ctx : Ctx) (locations : List Loc) (ar : List RAction)
    (rp : List Loc) (td : RDist) : Triple :=
  if rp ≠ [] ∧ ¬ (locations.all (fun l => rp.contains l) ∧
      rp.all (fun l => locations.contains l)) then
    let missing := locations.filter fun l => !rp.contains l
    let temp := missing.foldl repair_insert rp
    if check_constraints ctx temp then
      let ar2 := rebuild_actions ar temp
      let rd := (calculate_route_distance ctx temp).2
      let td2 := if rd ≠ ⊤ ∧ (50 : RDist) ≤ rd then rd else td
      (ar2, temp, td2)
    else (ar, rp, td)
  else (ar, rp, td)

/-- Embeds the try block of solve_tsp, lines 768 to 939 of routing.py: run the solver,
replace the result by the fallback route when locations are missing, when a validation
fails, and finally by the minimal route when the result is still too short or its
distance unrealistic. -/
def solve_tsp_try (ctx : Ctx) (orc : Oracles) (start : Loc) (locations : List Loc) :
    Except Unit Triple := do
  let packages := ctx.packages
  let t0 ← solve_tsp_improved ctx orc start locations
  let t1 ←
    if ¬ locations.all (fun l => t0.2.1.contains l) then
      fallback_route ctx orc start locations
    else pure t0
  let invalid2 := path_has_closed_road ctx t1.2.1
  let invalid3 := t1.2.2 < 50 ∨ t1.2.2 = ⊤
  let invalid4 := ¬ check_constraints ctx t1.2.1
  let invalid5 := packages ≠ [] ∧
    (let s := stv_pkg_scan none [] t1.1
     s.1 = true ∨ s.2.length < packages.length)
  let t2 ←
    if invalid2 = true ∨ invalid3 ∨ invalid4 ∨ invalid5 then
      fallback_route ctx orc start locations
    else pure t1
  let t3 := solve_tsp_repair ctx locations t2.1 t2.2.1 t2.2.2
  pure
    (if t3.2.1.length < locations.length ∨ t3.2.2 < 50 ∨ t3.2.2 = ⊤ then
      minimal_fallback ctx
    else t3)

/-- Embeds the final distance correction of solve_tsp, lines 990 to 1016 of routing.py:
a total below 100 is replaced by the placeholder recalculation when that reaches 100,
and otherwise clamped from below by the minimal reasonable distance and by 100. The
error case is the ValueError of min() on an empty list, which the source would raise
past the except clause when the distance table has no positive entry. -/
def distance_correction (ctx : Ctx) (locations : List Loc) (ar : List RAction)
    (td : RDist) : Except Unit RDist :=
  if td < 100 then
    let route_locs := dedup_consecutive (ar.map RAction.location)
    let recal := dist300_sum ctx route_locs
    if (100 : ℚ) ≤ recal then .ok (recal : RDist)
    else
      match ((ctx.distances.map (fun e => e.2)).filter (fun d => 0 < d)).min? with
      | none => .error ()
      | some m =>
        .ok (max (max td ((m * ((locations.length : ℚ) - 1) : ℚ) : RDist)) 100)
  else .ok td

/-- Embeds solve_tsp of routing.py: the try block, the exception fallback for every
escaped exception, and the final distance correction on whatever triple resulted. -/
def solve_tsp (ctx : Ctx) (orc : Oracles) (start : Loc) (locations : List Loc) :
    Except Unit Triple := do
  let t :=
    match solve_tsp_try ctx orc start locations with
    | .ok v => v
    | .error _ => except_fallback ctx
  let td ← distance_correction ctx locations t.1 t.2.2
  pure (t.1, t.2.1, td)

/-- Keys of the LOCATIONS dict of config.py, in dict order. -/
def cfg_locations : List Loc :=
  ["Factory", "DHL Hub", "Shop", "Residence", "Central Hub"]

/-- DISTANCES table of config.py. -/
def cfg_distances : List ((Loc × Loc) × ℚ) :=
  [(("Factory", "DHL Hub"), 3), (("Factory", "Shop"), 4.5),
   (("Factory", "Residence"), 2), (("Factory", "Central Hub"), 2),
   (("DHL Hub", "Shop"), 2), (("DHL Hub", "Residence"), 4.5),
   (("DHL Hub", "Central Hub"), 2), (("Shop", "Residence"), 3),
   (("Shop", "Central Hub"), 2), (("Residence", "Central Hub"), 2)]

/-- Session constraints of the game, modelled from the spec and the hard-coded checks
of validate_optimal_route: Factory before Shop and DHL Hub before Residence (the
Complex Supply Chain rules of config.py, under the config location names). -/
def cfg_constraints : List (Loc × Loc) :=
  [("Factory", "Shop"), ("DHL Hub", "Residence")]

/-- Oracle instantiation whose library answers are all negative and whose set iteration
order is the insertion order. -/
def orcPlain : Oracles :=
  { mst := none, spw := fun _ _ => none, bfs := fun _ _ => none, setOrd := fun l => l }

/-- Context of the first C2 scenario: the config network with the Factory-Shop road
closed. -/
def ctxC2a : Ctx :=
  { locations := cfg_locations, distances := cfg_distances,
    closed_roads := [("Factory", "Shop")], constraints := cfg_constraints,
    packages := [] }

/-- Context of the second C2 scenario: a line graph A-C-D-B whose closed A-B road needs
two intermediate hops. -/
def ctxC2b : Ctx :=
  { locations := ["A", "B", "C", "D"],
    distances := [(("A", "C"), 1), (("C", "D"), 1), (("D", "B"), 1)],
    closed_roads := [("A", "B")], constraints := [], packages := [] }

/-- Context of the C1 scenario: the config network with every road into Shop closed, so
Shop is disconnected from every other location. -/
def ctxC1 : Ctx :=
  { locations := cfg_locations, distances := cfg_distances,
    closed_roads := [("Factory", "Shop"), ("DHL Hub", "Shop"), ("Shop", "Residence"),
      ("Shop", "Central Hub")],
    constraints := cfg_constraints, packages := [] }

/-- Context of the C6 scenario: the config network, no closures, and a cyclic
constraint set over Factory and Shop. -/
def ctxC6 : Ctx :=
  { locations := cfg_locations, distances := cfg_distances, closed_roads := [],
    constraints := [("Factory", "Shop"), ("Shop", "Factory")], packages := [] }

/-- Oracle instantiation for the C6 counterexample: the spanning-tree preorder networkx
computes for the full config network from Factory, negative path answers (never reached
there), and insertion set order. -/
def orcC6 : Oracles :=
  { mst := some ["Factory", "Residence", "Central Hub", "DHL Hub", "Shop"],
    spw := fun _ _ => none, bfs := fun _ _ => none, setOrd := fun l => l }

/-- Context of the C3 scenario: the config network, no closures, one package to carry
from Shop to Residence. -/
def ctxC3 : Ctx :=
  { locations := cfg_locations, distances := cfg_distances, closed_roads := [],
    constraints := cfg_constraints, packages := [⟨1, "Shop", "Residence"⟩] }

/-- Context of the C4 scenario: the config network, no closures, one package from
Factory to Shop. -/
def ctxC4 : Ctx :=
  { locations := cfg_locations, distances := cfg_distances, closed_roads := [],
    constraints := cfg_constraints, packages := [⟨1, "Factory", "Shop"⟩] }

/-- Accepted action sequence of the C4 counterexample: package 1 is picked up, then
delivered, then picked up again and never delivered. -/
def c4_route : List RAction :=
  [RAction.pickup "Factory" 1, RAction.deliver "Shop" 1, RAction.pickup "Factory" 1]

/-- Recognizes deliver actions. -/
def is_deliver_action : RAction → Bool
  | .deliver _ _ => true
  | _ => false

/-- Seven locations for the C7 scenario, in which the start location C is never reached
within the permutation budget. -/
def locs7 : List Loc := ["A", "B", "C", "D", "E", "F", "G"]

/-- Context of the C7 scenario. -/
def ctxC7 : Ctx :=
  { locations := locs7, distances := [(("A", "B"), 1)], closed_roads := [],
    constraints := [], packages := [] }

/-- Context of a nine-location network, for exercising the size gate of the
brute-force stage. -/
def ctxC7w : Ctx :=
  { locations := ["A", "B", "C", "D", "E", "F", "G", "H", "I"], distances := [],
    closed_roads := [], constraints := [], packages := [] }

/-- Small two-location context on which solve_tsp returns a value, used to witness the
distance floor. -/
def ctxC9w : Ctx :=
  { locations := ["A", "B"], distances := [(("A", "B"), 1)], closed_roads := [],
    constraints := [], packages := [] }

/-- Context for exercising the local-search passes: the config network with the game
constraints and no closures. -/
def ctxOpt : Ctx :=
  { locations := cfg_locations, distances := cfg_distances, closed_roads := [],
    constraints := cfg_constraints, packages := [] }

theorem lookupDist_mem (ctx : Ctx) (p : Loc × Loc) {d : ℚ}
    (h : lookupDist ctx p = some d) : ∃ e ∈ ctx.distances, e.1 = p ∧ e.2 = d := by
  unfold lookupDist at h
  cases hf : ctx.distances.find? (fun e => e.1 == p) with
  | none => rw [hf] at h; simp at h
  | some e =>
    rw [hf] at h
    simp only [Option.map_some', Option.some.injEq] at h
    refine ⟨e, List.mem_of_find?_eq_some hf, ?_, h⟩
    have he := List.find?_some hf
    simpa using he

theorem get_distance_comm (ctx : Ctx)
    (hsym : ∀ p ∈ ctx.distances, ∀ q ∈ ctx.distances,
      p.1.1 = q.1.2 → p.1.2 = q.1.1 → p.2 = q.2)
    (a b : Loc) : get_distance ctx a b = get_distance ctx b a := by
  have hc : is_road_closed ctx a b = is_road_closed ctx b a := by
    simp [is_road_closed, Bool.or_comm]
  unfold get_distance
  rw [hc]
  by_cases h : is_road_closed ctx b a
  · simp [h]
  · simp only [h, Bool.false_eq_true, if_false]
    cases h1 : lookupDist ctx (a, b) with
    | none =>
      cases h2 : lookupDist ctx (b, a) with
      | none => rfl
      | some e => rfl
    | some d =>
      cases h2 : lookupDist ctx (b, a) with
      | none => rfl
      | some e =>
        obtain ⟨pe, hpe, hpe1, hpe2⟩ := lookupDist_mem ctx _ h1
        obtain ⟨qe, hqe, hqe1, hqe2⟩ := lookupDist_mem ctx _ h2
        have : pe.2 = qe.2 := by
          apply hsym pe hpe qe hqe
          · rw [hpe1, hqe1]
          · rw [hpe1, hqe1]
        rw [hpe2, hqe2] at this
        rw [this]

/-- C8: distance lookup is symmetric for the config distance table, for every pair of
locations and every closure set, including closed and absent edges. The table
hypothesis of the general lemma, that no pair appears in both orientations with
different values, holds for the config table by evaluation. -/
theorem C8_get_distance_symmetric (closed cs : List (Loc × Loc))
    (pkgs : List Package) (a b : Loc) :
    get_distance ⟨cfg_locations, cfg_distances, closed, cs, pkgs⟩ a b =
      get_distance ⟨cfg_locations, cfg_distances, closed, cs, pkgs⟩ b a := by
  have h : ∀ p ∈ cfg_distances, ∀ q ∈ cfg_distances,
      p.1.1 = q.1.2 → p.1.2 = q.1.1 → p.2 = q.2 := by decide
  exact get_distance_comm _ h a b

/-- C2 (amended): find_detour returns the direct pair when the road is open; when it is
closed, it returns the path through the FIRST location of the LOCATIONS order usable as
a single intermediate hop, not through a minimizing one; when no single intermediate
hop exists it returns (none, infinity) with no further search. Likewise
calculate_segment_path, whose extra first case covers a finite direct distance and
whose second case covers an open but absent edge. -/
theorem C2_resolve_first_hop_characterization (ctx : Ctx) (a b : Loc) :
    (find_detour ctx a b =
      if is_road_closed ctx a b = false then (some [a, b], get_distance ctx a b)
      else
        match first_open_via ctx a b with
        | some v => (some [a, v, b], get_distance ctx a v + get_distance ctx v b)
        | none => (none, ⊤)) ∧
    (calculate_segment_path ctx a b =
      if get_distance ctx a b ≠ ⊤ then (some [a, b], get_distance ctx a b)
      else if is_road_closed ctx a b = false then (some [a, b], (⊤ : RDist))
      else
        match first_open_via ctx a b with
        | some v => (some [a, v, b], get_distance ctx a v + get_distance ctx v b)
        | none => (none, ⊤)) := by
  have hfd : find_detour ctx a b =
      if is_road_closed ctx a b = false then (some [a, b], get_distance ctx a b)
      else
        match first_open_via ctx a b with
        | some v => (some [a, v, b], get_distance ctx a v + get_distance ctx v b)
        | none => (none, ⊤) := by
    unfold find_detour first_open_via
    by_cases h : is_road_closed ctx a b
    · simp only [h]
      rw [find_detour_aux_eq_find]
    · simp [h]
  refine ⟨hfd, ?_⟩
  unfold calculate_segment_path
  rw [hfd]
  by_cases hd : get_distance ctx a b = ⊤
  · by_cases h : is_road_closed ctx a b
    · simp only [hd, h, ne_eq, not_true_eq_false, if_false, Bool.true_eq_false,
        ite_false]
      cases first_open_via ctx a b with
      | none => simp
      | some v => simp
    · simp [hd, h]
  · simp [hd]

/-- C2 (counterexample): with the Factory-Shop road closed in the config network,
find_detour goes through DHL Hub at cost 5 although the intermediate hop through
Central Hub costs 4, refuting the minimization claim; and in the line network A-C-D-B
with A-B closed, find_detour returns no route although B is reachable from A through
the open segments A-C, C-D, D-B, refuting the shortest-path fallback claim. -/
theorem C2_counterexample_not_minimizing :
    (find_detour ctxC2a "Factory" "Shop" =
        (some ["Factory", "DHL Hub", "Shop"], (5 : RDist)) ∧
      get_distance ctxC2a "Factory" "Central Hub" +
          get_distance ctxC2a "Central Hub" "Shop" = (4 : RDist) ∧
      (4 : RDist) < 5) ∧
    (find_detour ctxC2b "A" "B" = (none, ⊤) ∧
      get_distance ctxC2b "A" "C" = (1 : RDist) ∧
      get_distance ctxC2b "C" "D" = (1 : RDist) ∧
      get_distance ctxC2b "D" "B" = (1 : RDist)) := by
  decide

/-- C1: evaluation of solve_tsp at a closure set that disconnects Shop from every
other location. The first conjunct certifies the disconnection: no segment from any
other location into Shop resolves. The second conjunct shows the returned value: not a
typed failure (the return type of the source has none), but an ordinary triple whose
path is the hard-coded [Warehouse, Distribution Center, Shop, Home] list, locations
that are not even part of the input, and whose distance 900 is the sum of three
placeholder values 300 substituted for the absent edges. -/
theorem C1_disconnected_returns_placeholder_route :
    (cfg_locations.all fun l =>
      l == "Shop" || decide (calculate_segment_path ctxC1 l "Shop" = (none, ⊤))) = true
    ∧ solve_tsp ctxC1 orcPlain "Factory" cfg_locations =
      .ok ([RAction.visit "Warehouse"],
        ["Warehouse", "Distribution Center", "Shop", "Home"], (900 : RDist)) := by
  decide

/-- C3: evaluation of create_action_route at a route [Factory, Shop] with one package
whose pickup is Shop and whose delivery is Residence. The package is picked up at the
last ordering position and is still carried when the ordering is exhausted; the
appended completion only processes packages whose status is waiting, so the result
contains its Pickup action but no Deliver action at all. -/
theorem C3_carried_package_never_delivered :
    create_action_route ctxC3 ctxC3.packages ["Factory", "Shop"] =
      [RAction.visit "Factory", RAction.visit "Shop", RAction.pickup "Shop" 1] ∧
    ((create_action_route ctxC3 ctxC3.packages ["Factory", "Shop"]).filter
      is_deliver_action).length = 0 := by
  decide

/-- C4 (counterexample): validate_optimal_route accepts an action sequence in which
package 1 is picked up twice but delivered once, and whose final action leaves the
package picked up and undelivered; the package scan ends still carrying package 1.
This refutes both the exactly-once pairing and the impossibility of ending while a
picked-up package is still carried. -/
theorem C4_counterexample_accepts_carried_end :
    validate_optimal_route ctxC4 c4_route ["Factory"] ctxC4.packages = true ∧
    (c4_route.filter (fun a => a == RAction.pickup "Factory" 1)).length = 2 ∧
    (c4_route.filter is_deliver_action).length = 1 ∧
    pd_scan none [] c4_route = some (some 1, [1]) := by
  decide

theorem pd_scan_carry_delivered : ∀ (as : List RAction) (p : ℕ) (handled : List ℕ)
    (res : Option ℕ × List ℕ), pd_scan (some p) handled as = some res →
    res.1 = some p ∨ ∃ l, RAction.deliver l p ∈ as := by
  intro as
  induction as with
  | nil =>
    intro p handled res h
    simp only [pd_scan, Option.some.injEq] at h
    left
    rw [← h]
  | cons a rest ih =>
    intro p handled res h
    cases a with
    | visit lo =>
      simp only [pd_scan] at h
      rcases ih p handled res h with h1 | ⟨l, hl⟩
      · left; exact h1
      · right; exact ⟨l, List.mem_cons_of_mem _ hl⟩
    | pickup lo pid => simp [pd_scan] at h
    | deliver lo pid =>
      simp only [pd_scan] at h
      by_cases hpq : p = pid
      · right
        exact ⟨lo, by rw [hpq]; exact List.mem_cons_self _ _⟩
      · have : (some p == some pid) = false := by simp [hpq]
        rw [this] at h
        simp at h

theorem pd_scan_pickup_delivered : ∀ (as : List RAction) (c : Option ℕ)
    (handled : List ℕ) (res : Option ℕ × List ℕ), pd_scan c handled as = some res →
    ∀ l p, RAction.pickup l p ∈ as →
      res.1 = some p ∨
        ∃ l2, [RAction.pickup l p, RAction.deliver l2 p].Sublist as := by
  intro as
  induction as with
  | nil =>
    intro c handled res h l p hm
    simp at hm
  | cons a rest ih =>
    intro c handled res h l p hm
    cases a with
    | visit lo =>
      simp only [pd_scan] at h
      rcases List.mem_cons.mp hm with heq | hmem
      · simp at heq
      · rcases ih c handled res h l p hmem with h1 | ⟨l2, hs⟩
        · left; exact h1
        · right; exact ⟨l2, hs.cons _⟩
    | pickup lo pid =>
      cases c with
      | some q => simp [pd_scan] at h
      | none =>
        simp only [pd_scan] at h
        rcases List.mem_cons.mp hm with heq | hmem
        · have hlp : l = lo ∧ p = pid := by simpa using heq
          obtain ⟨rfl, rfl⟩ := hlp
          rcases pd_scan_carry_delivered rest p _ res h with h1 | ⟨l2, hl2⟩
          · left; exact h1
          · right
            exact ⟨l2, List.Sublist.cons₂ _ (List.singleton_sublist.mpr hl2)⟩
        · rcases ih (some pid) _ res h l p hmem with h1 | ⟨l2, hs⟩
          · left; exact h1
          · right; exact ⟨l2, hs.cons _⟩
    | deliver lo pid =>
      simp only [pd_scan] at h
      by_cases hc : (c == some pid) = true
      · rw [hc] at h
        simp only [if_true] at h
        rcases List.mem_cons.mp hm with heq | hmem
        · simp at heq
        · rcases ih none handled res h l p hmem with h1 | ⟨l2, hs⟩
          · left; exact h1
          · right; exact ⟨l2, hs.cons _⟩
      · simp only [Bool.not_eq_true] at hc
        rw [hc] at h
        simp at h

/-- C4 (amended): whenever validate_optimal_route accepts an action sequence, every
package id that appears in a Pickup action either appears in a later Deliver action
with the same id (the pair forming a sublist of the sequence), or it is the single
package the sequence is still carrying when it ends, reported by the final state of the
package scan. The source does not check the final carried state, so the undelivered
carried package is genuinely possible, and pickup-deliver pairs of the same id may
repeat. -/
theorem C4_accepted_pickup_delivered_or_final_carry (ctx : Ctx) (route : List RAction)
    (path : List Loc) (packages : List Package)
    (h : validate_optimal_route ctx route path packages = true) :
    ∀ l p, RAction.pickup l p ∈ route →
      (∃ l2, [RAction.pickup l p, RAction.deliver l2 p].Sublist route) ∨
      (∃ handled, pd_scan none [] route = some (some p, handled)) := by
  intro l p hmem
  cases hscan : pd_scan none [] route with
  | none =>
    exfalso
    unfold validate_optimal_route at h
    by_cases he : route = [] ∨ path = []
    · simp [he] at h
    · simp only [he, if_false] at h
      rw [hscan] at h
      simp at h
  | some res =>
    rcases pd_scan_pickup_delivered route none [] res hscan l p hmem with h1 | h2
    · right
      refine ⟨res.2, ?_⟩
      have hres : res = (some p, res.2) := Prod.ext h1 rfl
      exact congrArg some hres
    · left; exact h2

/-- C4 (witness): the amended theorem applied to a concrete accepted sequence in which
package 1 is picked up at Factory and delivered at Shop. -/
theorem C4_accepted_pickup_delivered_witness :
    (∃ l2, [RAction.pickup "Factory" 1, RAction.deliver l2 1].Sublist
      [RAction.pickup "Factory" 1, RAction.deliver "Shop" 1]) ∨
    (∃ handled, pd_scan none []
      [RAction.pickup "Factory" 1, RAction.deliver "Shop" 1] =
        some (some 1, handled)) :=
  C4_accepted_pickup_delivered_or_final_carry ctxC4
    [RAction.pickup "Factory" 1, RAction.deliver "Shop" 1] ["Factory"] ctxC4.packages
    (by decide) "Factory" 1 (by decide)

theorem opt_sweep_dist_inv (ctx : Ctx) : ∀ (moves : List (List Loc))
    (best : List Loc × RDist) (improved : Bool),
    calculate_total_distance ctx best.1 = best.2 →
    calculate_total_distance ctx (opt_sweep ctx moves best improved).1.1 =
        (opt_sweep ctx moves best improved).1.2 ∧
      (opt_sweep ctx moves best improved).1.2 ≤ best.2 ∧
      ((opt_sweep ctx moves best improved).1.1 = best.1 ∨
        check_constraints ctx (opt_sweep ctx moves best improved).1.1 = true) := by
  intro moves
  induction moves with
  | nil =>
    intro best improved hd
    exact ⟨hd, le_refl _, Or.inl rfl⟩
  | cons m ms ih =>
    intro best improved hd
    by_cases hc : check_constraints ctx m = true
    · by_cases hlt : calculate_total_distance ctx m < best.2
      · have hred : opt_sweep ctx (m :: ms) best improved =
            opt_sweep ctx ms (m, calculate_total_distance ctx m) true := by
          simp [opt_sweep, hc, hlt]
        rw [hred]
        obtain ⟨d1, d2, d3⟩ := ih (m, calculate_total_distance ctx m) true rfl
        refine ⟨d1, le_trans d2 (le_of_lt hlt), ?_⟩
        rcases d3 with h | h
        · right; rw [h]; exact hc
        · right; exact h
      · have hred : opt_sweep ctx (m :: ms) best improved =
            opt_sweep ctx ms best improved := by
          simp [opt_sweep, hc, hlt]
        rw [hred]
        exact ih best improved hd
    · have hred : opt_sweep ctx (m :: ms) best improved =
          opt_sweep ctx ms best improved := by
        simp [opt_sweep, hc]
      rw [hred]
      exact ih best improved hd

theorem opt_loop_dist_inv (ctx : Ctx) (moves : List Loc → List (List Loc)) :
    ∀ (fuel : ℕ) (locRoute : List Loc) (best : List Loc × RDist),
    calculate_total_distance ctx best.1 = best.2 →
    calculate_total_distance ctx (opt_loop ctx moves fuel locRoute best) ≤ best.2 ∧
      (opt_loop ctx moves fuel locRoute best = best.1 ∨
        check_constraints ctx (opt_loop ctx moves fuel locRoute best) = true) := by
  intro fuel
  induction fuel with
  | zero =>
    intro locRoute best hd
    exact ⟨le_of_eq hd, Or.inl rfl⟩
  | succ fuel ih =>
    intro locRoute best hd
    obtain ⟨d1, d2, d3⟩ := opt_sweep_dist_inv ctx (moves locRoute) best false hd
    simp only [opt_loop]
    by_cases himp : (opt_sweep ctx (moves locRoute) best false).2 = true
    · simp only [himp, if_true]
      obtain ⟨e1, e2⟩ := ih (opt_sweep ctx (moves locRoute) best false).1.1
        (opt_sweep ctx (moves locRoute) best false).1 d1
      refine ⟨le_trans e1 d2, ?_⟩
      rcases e2 with h | h
      · rw [h]
        exact d3
      · right; exact h
    · simp only [Bool.not_eq_true] at himp
      simp only [himp, Bool.false_eq_true, if_false]
      refine ⟨le_of_eq d1 |>.trans d2, d3⟩

/-- C5: for every nonempty ordering that passes the constraint check, the orderings
returned by apply_two_opt and by apply_three_opt pass the constraint check and have a
resolved total distance at most that of the input: the local search passes never worsen
a route and never violate constraints. -/
theorem C5_local_search_never_worsens (ctx : Ctx) (route : List Loc)
    (_hne : route ≠ []) (hcc : check_constraints ctx route = true) :
    (check_constraints ctx (apply_two_opt ctx route) = true ∧
      calculate_total_distance ctx (apply_two_opt ctx route) ≤
        calculate_total_distance ctx route) ∧
    (check_constraints ctx (apply_three_opt ctx route) = true ∧
      calculate_total_distance ctx (apply_three_opt ctx route) ≤
        calculate_total_distance ctx route) := by
  constructor
  · have heq : apply_two_opt ctx route = opt_loop ctx two_opt_moves 100 route
        (route, calculate_total_distance ctx route) := rfl
    obtain ⟨d1, d2⟩ := opt_loop_dist_inv ctx two_opt_moves 100 route
      (route, calculate_total_distance ctx route) rfl
    rw [heq]
    refine ⟨?_, d1⟩
    rcases d2 with h | h
    · rw [h]; exact hcc
    · exact h
  · unfold apply_three_opt
    by_cases hlen : route.length < 6
    · simp only [hlen, if_true]
      exact ⟨hcc, le_refl _⟩
    · simp only [hlen, if_false]
      obtain ⟨d1, d2⟩ := opt_loop_dist_inv ctx three_opt_moves 5 route
        (route, calculate_total_distance ctx route) rfl
      refine ⟨?_, d1⟩
      rcases d2 with h | h
      · rw [h]; exact hcc
      · exact h

/-- C5 (witness): the local search theorem applied to the config network and the
ordering of the config locations, which satisfies both game constraints. -/
theorem C5_local_search_witness :
    cfg_locations ≠ [] ∧ check_constraints ctxOpt cfg_locations = true ∧
    ((check_constraints ctxOpt (apply_two_opt ctxOpt cfg_locations) = true ∧
      calculate_total_distance ctxOpt (apply_two_opt ctxOpt cfg_locations) ≤
        calculate_total_distance ctxOpt cfg_locations) ∧
    (check_constraints ctxOpt (apply_three_opt ctxOpt cfg_locations) = true ∧
      calculate_total_distance ctxOpt (apply_three_opt ctxOpt cfg_locations) ≤
        calculate_total_distance ctxOpt cfg_locations)) :=
  ⟨by decide, by decide,
    C5_local_search_never_worsens ctxOpt cfg_locations (by decide) (by decide)⟩

theorem reverse_segment_perm (l : List Loc) (i j : ℕ) (hij : i ≤ j + 1) :
    (reverse_segment l i j).Perm l := by
  unfold reverse_segment
  conv_rhs => rw [← List.take_append_drop i l]
  rw [List.append_assoc]
  refine List.Perm.append_left _ ?_
  conv_rhs => rw [← List.take_append_drop (j + 1 - i) (l.drop i)]
  refine List.Perm.append ((l.drop i).take (j + 1 - i)).reverse_perm ?_
  rw [List.drop_drop]
  have h3 : i + (j + 1 - i) = j + 1 := by omega
  rw [h3]

theorem reverse_segment_head (l : List Loc) (i j : ℕ) (hi : 1 ≤ i) :
    (reverse_segment l i j).head? = l.head? := by
  cases l with
  | nil => simp [reverse_segment]
  | cons x xs =>
    obtain ⟨k, rfl⟩ : ∃ k, i = k + 1 := ⟨i - 1, by omega⟩
    simp [reverse_segment, List.take_succ_cons]

theorem splice_segment_perm (l : List Loc) (i j k : ℕ) (hij : i ≤ j)
    (hjk : j ≤ k + 1) : (splice_segment l i j k).Perm l := by
  unfold splice_segment
  conv_rhs => rw [← List.take_append_drop i l]
  rw [List.append_assoc]
  refine List.Perm.append_left _ ?_
  have hsplit : l.drop i =
      (l.drop i).take (j - i) ++ ((l.drop j).take (k + 1 - j) ++ l.drop (k + 1)) := by
    conv_lhs => rw [← List.take_append_drop (j - i) (l.drop i)]
    congr 1
    rw [List.drop_drop]
    have h1 : i + (j - i) = j := by omega
    rw [h1]
    conv_lhs => rw [← List.take_append_drop (k + 1 - j) (l.drop j)]
    congr 1
    rw [List.drop_drop]
    have h2 : j + (k + 1 - j) = k + 1 := by omega
    rw [h2]
  conv_rhs => rw [hsplit, ← List.append_assoc]
  exact List.Perm.append List.perm_append_comm (List.Perm.refl _)

theorem splice_segment_head (l : List Loc) (i j k : ℕ) (hi : 1 ≤ i) :
    (splice_segment l i j k).head? = l.head? := by
  cases l with
  | nil => simp [splice_segment]
  | cons x xs =>
    obtain ⟨m, rfl⟩ : ∃ m, i = m + 1 := ⟨i - 1, by omega⟩
    simp [splice_segment, List.take_succ_cons]

theorem two_opt_moves_prop (l m : List Loc) (hm : m ∈ two_opt_moves l) :
    m.Perm l ∧ m.head? = l.head? := by
  unfold two_opt_moves at hm
  obtain ⟨i, hi, hmi⟩ := List.mem_flatMap.mp hm
  obtain ⟨j, hj, rfl⟩ := List.mem_map.mp hmi
  obtain ⟨hi1, _⟩ := List.mem_range'_1.mp hi
  obtain ⟨hj1, _⟩ := List.mem_range'_1.mp hj
  exact ⟨reverse_segment_perm l i j (by omega), reverse_segment_head l i j hi1⟩

theorem three_opt_moves_prop (l m : List Loc) (hm : m ∈ three_opt_moves l) :
    m.Perm l ∧ m.head? = l.head? := by
  unfold three_opt_moves at hm
  obtain ⟨i, hi, hmi⟩ := List.mem_flatMap.mp hm
  obtain ⟨j, hj, hmj⟩ := List.mem_flatMap.mp hmi
  obtain ⟨k, hk, hmk⟩ := List.mem_flatMap.mp hmj
  obtain ⟨hi1, _⟩ := List.mem_range'_1.mp hi
  obtain ⟨hj1, _⟩ := List.mem_range'_1.mp hj
  obtain ⟨hk1, _⟩ := List.mem_range'_1.mp hk
  by_cases hord : i < j ∧ j < k
  · rw [if_pos hord] at hmk
    obtain ⟨ho1, ho2⟩ := hord
    simp only [List.mem_cons, List.not_mem_nil, or_false] at hmk
    rcases hmk with rfl | rfl | rfl | rfl
    · exact ⟨reverse_segment_perm l i j (by omega), reverse_segment_head l i j hi1⟩
    · exact ⟨reverse_segment_perm l j k (by omega),
        reverse_segment_head l j k (by omega)⟩
    · exact ⟨reverse_segment_perm l i k (by omega), reverse_segment_head l i k hi1⟩
    · exact ⟨splice_segment_perm l i j k (by omega) (by omega),
        splice_segment_head l i j k hi1⟩
  · rw [if_neg hord] at hmk
    simp at hmk

theorem opt_sweep_perm_inv (ctx : Ctx) (input : List Loc) :
    ∀ (moves : List (List Loc)) (best : List Loc × RDist) (improved : Bool),
    (∀ m ∈ moves, m.Perm input ∧ m.head? = input.head?) →
    best.1.Perm input → best.1.head? = input.head? →
    (opt_sweep ctx moves best improved).1.1.Perm input ∧
      (opt_sweep ctx moves best improved).1.1.head? = input.head? := by
  intro moves
  induction moves with
  | nil =>
    intro best improved _ hb1 hb2
    exact ⟨hb1, hb2⟩
  | cons m ms ih =>
    intro best improved hmv hb1 hb2
    have hmhead := hmv m (List.mem_cons_self m ms)
    have hrest : ∀ x ∈ ms, x.Perm input ∧ x.head? = input.head? :=
      fun x hx => hmv x (List.mem_cons_of_mem m hx)
    by_cases hc : check_constraints ctx m = true
    · by_cases hlt : calculate_total_distance ctx m < best.2
      · have hred : opt_sweep ctx (m :: ms) best improved =
            opt_sweep ctx ms (m, calculate_total_distance ctx m) true := by
          simp [opt_sweep, hc, hlt]
        rw [hred]
        exact ih (m, calculate_total_distance ctx m) true hrest hmhead.1 hmhead.2
      · have hred : opt_sweep ctx (m :: ms) best improved =
            opt_sweep ctx ms best improved := by
          simp [opt_sweep, hc, hlt]
        rw [hred]
        exact ih best improved hrest hb1 hb2
    · have hred : opt_sweep ctx (m :: ms) best improved =
          opt_sweep ctx ms best improved := by
        simp [opt_sweep, hc]
      rw [hred]
      exact ih best improved hrest hb1 hb2

theorem opt_loop_perm_inv (ctx : Ctx) (moves : List Loc → List (List Loc))
    (hmv : ∀ l m, m ∈ moves l → m.Perm l ∧ m.head? = l.head?) (input : List Loc) :
    ∀ (fuel : ℕ) (locRoute : List Loc) (best : List Loc × RDist),
    locRoute.Perm input → locRoute.head? = input.head? →
    best.1.Perm input → best.1.head? = input.head? →
    (opt_loop ctx moves fuel locRoute best).Perm input ∧
      (opt_loop ctx moves fuel locRoute best).head? = input.head? := by
  intro fuel
  induction fuel with
  | zero =>
    intro locRoute best _ _ hb1 hb2
    exact ⟨hb1, hb2⟩
  | succ fuel ih =>
    intro locRoute best hl1 hl2 hb1 hb2
    have hms : ∀ m ∈ moves locRoute, m.Perm input ∧ m.head? = input.head? := by
      intro m hmem
      obtain ⟨p1, p2⟩ := hmv locRoute m hmem
      exact ⟨p1.trans hl1, p2.trans hl2⟩
    obtain ⟨s1, s2⟩ := opt_sweep_perm_inv ctx input (moves locRoute) best false hms
      hb1 hb2
    simp only [opt_loop]
    by_cases himp : (opt_sweep ctx (moves locRoute) best false).2 = true
    · simp only [himp, if_true]
      exact ih (opt_sweep ctx (moves locRoute) best false).1.1
        (opt_sweep ctx (moves locRoute) best false).1 s1 s2 s1 s2
    · simp only [Bool.not_eq_true] at himp
      simp only [himp, Bool.false_eq_true, if_false]
      exact ⟨s1, s2⟩

/-- C10: for every nonempty input ordering, apply_two_opt returns a permutation of the
input with the same first element, and so does apply_three_opt: no location is added,
dropped or duplicated, and the start location never moves. -/
theorem C10_local_search_permutes (ctx : Ctx) (route : List Loc) (_hne : route ≠ []) :
    ((apply_two_opt ctx route).Perm route ∧
      (apply_two_opt ctx route).head? = route.head?) ∧
    ((apply_three_opt ctx route).Perm route ∧
      (apply_three_opt ctx route).head? = route.head?) := by
  constructor
  · have heq : apply_two_opt ctx route = opt_loop ctx two_opt_moves 100 route
        (route, calculate_total_distance ctx route) := rfl
    rw [heq]
    exact opt_loop_perm_inv ctx two_opt_moves two_opt_moves_prop route 100 route
      (route, calculate_total_distance ctx route) (List.Perm.refl _) rfl
      (List.Perm.refl _) rfl
  · unfold apply_three_opt
    by_cases hlen : route.length < 6
    · rw [if_pos hlen]
      exact ⟨List.Perm.refl _, rfl⟩
    · rw [if_neg hlen]
      exact opt_loop_perm_inv ctx three_opt_moves three_opt_moves_prop route 5 route
        (route, calculate_total_distance ctx route) (List.Perm.refl _) rfl
        (List.Perm.refl _) rfl

/-- C10 (witness): the permutation theorem applied to the config network and the
ordering of the config locations. -/
theorem C10_local_search_permutes_witness :
    cfg_locations ≠ [] ∧
    (((apply_two_opt ctxOpt cfg_locations).Perm cfg_locations ∧
      (apply_two_opt ctxOpt cfg_locations).head? = cfg_locations.head?) ∧
    ((apply_three_opt ctxOpt cfg_locations).Perm cfg_locations ∧
      (apply_three_opt ctxOpt cfg_locations).head? = cfg_locations.head?)) :=
  ⟨by decide, C10_local_search_permutes ctxOpt cfg_locations (by decide)⟩

theorem select_each_length (l : List Loc) : (select_each l).length = l.length := by
  induction l with
  | nil => rfl
  | cons x xs ih => simp [select_each, ih]

theorem select_each_rest_length (l : List Loc) :
    ∀ p ∈ select_each l, p.2.length + 1 = l.length := by
  induction l with
  | nil => intro p hp; simp [select_each] at hp
  | cons x xs ih =>
    intro p hp
    simp only [select_each, List.mem_cons] at hp
    rcases hp with rfl | hp
    · simp
    · obtain ⟨q, hq, rfl⟩ := List.mem_map.mp hp
      have := ih q hq
      simp only [List.length_cons]
      omega

theorem py_permutations_aux_length : ∀ (fuel : ℕ) (l : List Loc),
    l.length = fuel → (py_permutations_aux fuel l).length = fuel.factorial := by
  intro fuel
  induction fuel with
  | zero => intro l _; rfl
  | succ fuel ih =>
    intro l hlen
    simp only [py_permutations_aux]
    rw [List.length_flatMap]
    simp only [Function.comp_def]
    have hmap : (select_each l).map
        (fun p => ((py_permutations_aux fuel p.2).map (p.1 :: ·)).length) =
        (select_each l).map (fun _ => fuel.factorial) := by
      apply List.map_congr_left
      intro p hp
      rw [List.length_map]
      apply ih
      have := select_each_rest_length l p hp
      omega
    rw [hmap, List.map_const', List.sum_replicate, smul_eq_mul, select_each_length,
      hlen, Nat.factorial_succ]

theorem brute_force_examined_le (locations : List Loc) :
    (brute_force_examined locations).length ≤ 1000 := by
  unfold brute_force_examined
  by_cases h : locations.length > 6
  · rw [if_pos h, List.length_take]
    omega
  · rw [if_neg h]
    unfold py_permutations
    rw [py_permutations_aux_length locations.length locations rfl]
    calc locations.length.factorial ≤ Nat.factorial 6 :=
        Nat.factorial_le (by omega)
      _ ≤ 1000 := by decide

/-- C7 (amended): the brute-force stage contributes a candidate only when there are at
most 8 locations; every permutation it keeps starts at the start location and satisfies
the constraints; and it examines at most 1000 permutations in total. However the
enumeration does not fix the start location first: permutations with any first element
are examined, each counting toward the budget, and only the start-first ones are kept
afterwards. -/
theorem C7_brute_force_gate_and_budget (ctx : Ctx) (start : Loc)
    (locations : List Loc) :
    (8 < locations.length → brute_force_candidate ctx start locations = none) ∧
    (∀ p ∈ brute_force_valid_perms ctx start locations,
      p.head? = some start ∧ check_constraints ctx p = true) ∧
    (brute_force_examined locations).length ≤ 1000 := by
  refine ⟨?_, ?_, brute_force_examined_le locations⟩
  · intro h
    unfold brute_force_candidate
    rw [if_neg (by omega)]
  · intro p hp
    unfold brute_force_valid_perms at hp
    have := List.of_mem_filter hp
    simp only [Bool.and_eq_true, beq_iff_eq] at this
    exact this

/-- C7 (witness): the gate of the amended theorem applied to a nine-location input,
where the brute-force stage contributes nothing. -/
theorem C7_brute_force_gate_witness :
    brute_force_candidate ctxC7w "A" ctxC7w.locations = none :=
  (C7_brute_force_gate_and_budget ctxC7w "A" ctxC7w.locations).1 (by decide)

set_option maxRecDepth 40000 in
/-- C7 (counterexample): with seven locations the stage runs (seven is at most eight),
but the first permutation examined is the identity ordering starting at A, not one
starting at the start location C; the full budget of 1000 permutations is spent on
permutations starting at A or B, so not a single valid permutation is kept, although
permutations starting at C exist among all permutations. This refutes the claim that
the enumeration fixes the start location first. -/
theorem C7_counterexample_start_not_fixed :
    locs7.length ≤ 8 ∧
    (brute_force_examined locs7).head? = some ["A", "B", "C", "D", "E", "F", "G"] ∧
    brute_force_valid_perms ctxC7 "C" locs7 = [] ∧
    (py_permutations locs7).any (fun p => p.head? == some "C") = true := by
  decide

theorem distance_correction_ge (ctx : Ctx) (locations : List Loc) (ar : List RAction)
    (td : RDist) (v : RDist) (h : distance_correction ctx locations ar td = .ok v) :
    (100 : RDist) ≤ v := by
  unfold distance_correction at h
  by_cases hlt : td < 100
  · rw [if_pos hlt] at h
    by_cases hrec :
        (100 : ℚ) ≤ dist300_sum ctx (dedup_consecutive (ar.map RAction.location))
    · rw [if_pos hrec] at h
      simp only [Except.ok.injEq] at h
      rw [← h]
      exact WithTop.coe_le_coe.mpr hrec
    · rw [if_neg hrec] at h
      cases hmin :
          ((ctx.distances.map (fun e => e.2)).filter (fun d => 0 < d)).min? with
      | none => rw [hmin] at h; simp at h
      | some m =>
        rw [hmin] at h
        simp only [Except.ok.injEq] at h
        rw [← h]
        exact le_max_right _ _
  · rw [if_neg hlt] at h
    simp only [Except.ok.injEq] at h
    rw [← h]
    exact le_of_not_lt hlt

/-- C9: every triple solve_tsp returns has a total distance of at least 100: the final
correction block replaces any smaller total by the placeholder recalculation when that
reaches 100 and otherwise clamps it from below by 100, regardless of the length of the
returned route. -/
theorem C9_distance_floor (ctx : Ctx) (orc : Oracles) (start : Loc)
    (locations : List Loc) (ar : List RAction) (rp : List Loc) (td : RDist)
    (h : solve_tsp ctx orc start locations = .ok (ar, rp, td)) :
    (100 : RDist) ≤ td := by
  unfold solve_tsp at h
  simp only [bind, Except.bind, pure, Except.pure] at h
  cases htry : solve_tsp_try ctx orc start locations with
  | error e =>
    rw [htry] at h
    cases hdc : distance_correction ctx locations (except_fallback ctx).1
        (except_fallback ctx).2.2 with
    | error e2 => rw [hdc] at h; simp at h
    | ok v =>
      rw [hdc] at h
      simp only [Except.ok.injEq, Prod.mk.injEq] at h
      obtain ⟨_, _, h3⟩ := h
      rw [← h3]
      exact distance_correction_ge _ _ _ _ _ hdc
  | ok t =>
    rw [htry] at h
    cases hdc : distance_correction ctx locations t.1 t.2.2 with
    | error e2 => rw [hdc] at h; simp at h
    | ok v =>
      rw [hdc] at h
      simp only [Except.ok.injEq, Prod.mk.injEq] at h
      obtain ⟨_, _, h3⟩ := h
      rw [← h3]
      exact distance_correction_ge _ _ _ _ _ hdc

/-- C9 (witness): the distance floor theorem applied to a concrete two-location run on
which solve_tsp falls back to its exception branch and returns distance 900. -/
theorem C9_distance_floor_witness : (100 : RDist) ≤ (900 : RDist) :=
  C9_distance_floor ctxC9w orcPlain "A" ["A", "B"] [RAction.visit "Warehouse"]
    ["Warehouse", "Distribution Center", "Shop", "Home"] (900 : RDist) (by decide)

theorem ctxC6_check_false (r : List Loc) (hF : r.contains "Factory" = true)
    (hS : r.contains "Shop" = true) : check_constraints ctxC6 r = false := by
  unfold check_constraints
  simp only [ctxC6, List.all_cons, List.all_nil, Bool.and_true]
  simp only [hF, hS, Bool.not_true, Bool.false_or]
  rcases Nat.lt_or_ge (r.indexOf "Factory") (r.indexOf "Shop") with h | h
  · have h2 : ¬ (r.indexOf "Shop" < r.indexOf "Factory") := by omega
    simp [h, h2]
  · have h1 : ¬ (r.indexOf "Factory" < r.indexOf "Shop") := by omega
    simp [h1]

theorem fallback_route_error (ctx : Ctx) (orc : Oracles) (start : Loc)
    (locations : List Loc) (hW : locations.contains "Warehouse" = false) :
    fallback_route ctx orc start locations = .error () := by
  by_cases hsw : start = "Warehouse"
  · subst hsw
    have e1 : fallback_extend orc locations "Warehouse" ["Warehouse"] =
        .ok ["Warehouse"] := by
      unfold fallback_extend
      rw [if_pos (by decide : ((["Warehouse"] : List Loc).contains "Warehouse") = true)]
    have e3 : find_valid_path locations orc.bfs "Warehouse" "Distribution Center" =
        .error () := by
      unfold find_valid_path
      rw [hW]
      simp
    have e2 : fallback_extend orc locations "Distribution Center" ["Warehouse"] =
        .error () := by
      unfold fallback_extend
      rw [if_neg (by decide :
        ¬ ((["Warehouse"] : List Loc).contains "Distribution Center") = true)]
      simp only [Bind.bind, Except.bind, List.getLast?_singleton, Option.getD_some]
      rw [e3]
    unfold fallback_route
    simp [Bind.bind, Except.bind, e1, e2]
  · have hc : (([start] : List Loc).contains "Warehouse") = false := by
      rw [← Bool.not_eq_true]
      intro hcc
      have : ("Warehouse" : Loc) = start := by simpa using List.elem_iff.mp hcc
      exact hsw this.symm
    have e3 : find_valid_path locations orc.bfs start "Warehouse" = .error () := by
      unfold find_valid_path
      rw [hW]
      simp
    have e1 : fallback_extend orc locations "Warehouse" [start] = .error () := by
      unfold fallback_extend
      rw [if_neg (show ¬ (([start] : List Loc).contains "Warehouse") = true by
        rw [hc]; exact Bool.false_ne_true)]
      simp only [Bind.bind, Except.bind, List.getLast?_singleton, Option.getD_some]
      rw [e3]
    unfold fallback_route
    simp [Bind.bind, Except.bind, e1]

theorem ctxC6_candidates_nil (orc : Oracles) :
    candidate_routes ctxC6 orc "Factory" cfg_locations = [] := by
  have h1 : check_constraints ctxC6
      (nearest_neighbor_route ctxC6 "Factory" cfg_locations) = false := by decide
  have h2 : check_constraints ctxC6
      (insertion_route ctxC6 "Factory" cfg_locations) = false := by decide
  have h5 : brute_force_candidate ctxC6 "Factory" cfg_locations = none := by decide
  have h4 : check_constraints ctxC6
      (constraint_route_build orc "Factory" cfg_locations) = false := by
    have he : constraint_route_build orc "Factory" cfg_locations =
        "Factory" :: "Shop" :: orc.setOrd ["DHL Hub", "Residence", "Central Hub"] := rfl
    rw [he]
    apply ctxC6_check_false
    · exact List.elem_eq_true_of_mem (by simp)
    · exact List.elem_eq_true_of_mem (by simp)
  have h3 : ∀ m, mst_approximation orc "Factory" cfg_locations = some m →
      check_constraints ctxC6 m = false := by
    intro m hm
    unfold mst_approximation at hm
    cases horc : orc.mst with
    | none => rw [horc] at hm; simp at hm
    | some p =>
      rw [horc] at hm
      simp only [] at hm
      by_cases hcov : (("Factory" :: cfg_locations.filter
            (fun loc => loc != "Factory")).all (fun l => p.contains l) &&
          p.all (fun l => ("Factory" :: cfg_locations.filter
            (fun loc => loc != "Factory")).contains l)) = true
      · rw [if_pos hcov] at hm
        simp only [Bool.and_eq_true] at hcov
        obtain ⟨hall, _⟩ := hcov
        have hmp : m = p := by injection hm.symm
        subst hmp
        apply ctxC6_check_false
        · exact List.all_eq_true.mp hall "Factory" (by decide)
        · exact List.all_eq_true.mp hall "Shop" (by decide)
      · rw [if_neg hcov] at hm
        simp at hm
  cases hmst : mst_approximation orc "Factory" cfg_locations with
  | none => simp [candidate_routes, h1, h2, h4, h5, hmst]
  | some m => simp [candidate_routes, h1, h2, h4, h5, hmst, h3 m hmst]

theorem ctxC6_improved_error (orc : Oracles) :
    solve_tsp_improved ctxC6 orc "Factory" cfg_locations = .error () := by
  unfold solve_tsp_improved
  rw [ctxC6_candidates_nil orc]
  simp only [improve_candidates, Bind.bind, Except.bind]
  rw [show best_by_distance ctxC6 [] = none from rfl]
  exact fallback_route_error _ orc _ _ (by decide)

/-- C6 (amended): the planner has no cycle detection and no typed failure value at all.
With the cyclic constraint set Factory-before-Shop plus Shop-before-Factory configured
on the config network, candidate generation still runs, every candidate is rejected by
the constraint check, the fallback construction raises, and every planning call returns
the hard-coded exception-fallback route with placeholder distance 900 instead of any
InfeasibleConstraints failure, whatever the library answers and the set iteration order
are. -/
theorem C6_cyclic_returns_placeholder_route (orc : Oracles) :
    solve_tsp ctxC6 orc "Factory" cfg_locations =
      .ok ([RAction.visit "Warehouse"],
        ["Warehouse", "Distribution Center", "Shop", "Home"], (900 : RDist)) := by
  have htry : solve_tsp_try ctxC6 orc "Factory" cfg_locations = .error () := by
    unfold solve_tsp_try
    simp [Bind.bind, Except.bind, ctxC6_improved_error orc]
  unfold solve_tsp
  rw [htry]
  decide

/-- C6 (counterexample): a concrete planning call whose configured constraint set is
cyclic, with the library oracles instantiated at the values networkx produces for the
config network. The call does not return an InfeasibleConstraints failure (no such
value exists in the code); it returns an ordinary route triple, produced by the
exception fallback after candidate generation was attempted and every candidate was
filtered out. -/
theorem C6_counterexample_cyclic_gets_route :
    ("Factory", "Shop") ∈ ctxC6.constraints ∧
    ("Shop", "Factory") ∈ ctxC6.constraints ∧
    solve_tsp ctxC6 orcC6 "Factory" cfg_locations =
      .ok ([RAction.visit "Warehouse"],
        ["Warehouse", "Distribution Center", "Shop", "Home"], (900 : RDist)) := by
  refine ⟨by decide, by decide, ?_⟩
  decide

end LogisticsRush
